import Mathlib

/-!
Shallow embedding of the Snowflake ID generator (src/snowflake.rs).

All Rust `u64` values are modelled as `Nat`; operations that can wrap in
`u64` (the subtraction `timestamp - EPOCH` and the left shifts in the id
assembly) are made explicit with `% U64` where `U64 = 2 ^ 64`, matching the
wrapping semantics of release-mode Rust.  The wall clock is modelled as
explicit data: each call to `next_id` receives the first clock reading `now`
and a list `reads` of the further readings consumed by the busy-wait loop
`til_next_millis`.  A result of `none` models the loop spinning forever
because the supplied readings never exceed `last_timestamp`; the Rust call
would not return in that situation.
-/

/-- Custom epoch 2021-01-01T00:00:00Z in milliseconds, from the source. -/
def EPOCH : Nat := 1609459200000

def WORKER_ID_BITS : Nat := 5

def DATACENTER_ID_BITS : Nat := 5

def SEQUENCE_BITS : Nat := 12

def MAX_WORKER_ID : Nat := (1 <<< WORKER_ID_BITS) - 1

def MAX_DATACENTER_ID : Nat := (1 <<< DATACENTER_ID_BITS) - 1

def MAX_SEQUENCE : Nat := (1 <<< SEQUENCE_BITS) - 1

def TIMESTAMP_SHIFT : Nat := SEQUENCE_BITS + WORKER_ID_BITS + DATACENTER_ID_BITS

def DATACENTER_ID_SHIFT : Nat := SEQUENCE_BITS + WORKER_ID_BITS

def WORKER_ID_SHIFT : Nat := SEQUENCE_BITS

/-- The modulus of the Rust `u64` type. -/
def U64 : Nat := 2 ^ 64

/-- State of the core generator, mirroring `struct Snowflake`. -/
structure Snowflake where
  last_timestamp : Nat
  sequence : Nat
  worker_id : Nat
  datacenter_id : Nat
  deriving DecidableEq

/-- Error string returned by `next_id` on clock regression. -/
def clockErrMsg : String := "Clock moved backwards. Refusing to generate id."

/-- Error string returned by `Snowflake::new` on out-of-range arguments. -/
def rangeErrMsg : String := "Worker ID or Datacenter ID is out of range"

/-- Mirrors `Snowflake::new`. -/
def Snowflake.new (worker_id datacenter_id : Nat) : Except String Snowflake :=
  if worker_id > MAX_WORKER_ID ∨ datacenter_id > MAX_DATACENTER_ID then
    Except.error rangeErrMsg
  else
    Except.ok { last_timestamp := 0, sequence := 0, worker_id := worker_id,
                datacenter_id := datacenter_id }

/-- Wrapping `u64` subtraction `a - b` (for `a b < 2 ^ 64`). -/
def wrapSub (a b : Nat) : Nat := (U64 + a - b) % U64

/-- The id assembly expression of `next_id`:
`((timestamp - EPOCH) << TIMESTAMP_SHIFT) | (datacenter_id << DATACENTER_ID_SHIFT)
  | (worker_id << WORKER_ID_SHIFT) | sequence`, with every `u64` operation
that can wrap made explicit. -/
def mkId (timestamp datacenter_id worker_id sequence : Nat) : Nat :=
  ((wrapSub timestamp EPOCH <<< TIMESTAMP_SHIFT) % U64)
    ||| ((datacenter_id <<< DATACENTER_ID_SHIFT) % U64)
    ||| ((worker_id <<< WORKER_ID_SHIFT) % U64)
    ||| sequence

/-- Mirrors `Snowflake::til_next_millis`: repeatedly read the clock while the
reading is `≤ last_timestamp`; return the first strictly larger reading.
The successive readings are the elements of the list; `none` means the
supplied readings were exhausted with the clock never advancing. -/
def til_next_millis (last_timestamp : Nat) : List Nat → Option Nat
  | [] => none
  | t :: ts => if t ≤ last_timestamp then til_next_millis last_timestamp ts else some t

/-- Mirrors `Snowflake::next_id`.  `now` is the reading taken at the top of
the call; `reads` are the further readings available to the busy-wait loop.
The returned pair is (result of the call, state of the generator after the
call); on the clock-regression error the state is returned unchanged, exactly
as the Rust code leaves `self` untouched on that path. -/
def Snowflake.next_id (s : Snowflake) (now : Nat) (reads : List Nat) :
    Option (Except String Nat × Snowflake) :=
  if now < s.last_timestamp then
    some (Except.error clockErrMsg, s)
  else if now = s.last_timestamp then
    if (s.sequence + 1) &&& MAX_SEQUENCE = 0 then
      match til_next_millis s.last_timestamp reads with
      | none => none
      | some timestamp =>
        some (Except.ok (mkId timestamp s.datacenter_id s.worker_id 0),
          { s with last_timestamp := timestamp, sequence := 0 })
    else
      some (Except.ok (mkId now s.datacenter_id s.worker_id ((s.sequence + 1) &&& MAX_SEQUENCE)),
        { s with last_timestamp := now, sequence := (s.sequence + 1) &&& MAX_SEQUENCE })
  else
    some (Except.ok (mkId now s.datacenter_id s.worker_id 0),
      { s with last_timestamp := now, sequence := 0 })

/-- Mirrors `struct SnowflakeGenerator` (the mutex-protected facade); the
lock itself is invisible to a sequential embedding. -/
structure SnowflakeGenerator where
  mutex : Snowflake
  deriving DecidableEq

/-- Mirrors `SnowflakeGenerator::new` (delegates via `?` to `Snowflake::new`). -/
def SnowflakeGenerator.new (worker_id datacenter_id : Nat) :
    Except String SnowflakeGenerator :=
  (Snowflake.new worker_id datacenter_id).map SnowflakeGenerator.mk

/-- Mirrors `SnowflakeGenerator::next_id`: lock, delegate, unlock. -/
def SnowflakeGenerator.next_id (g : SnowflakeGenerator) (now : Nat) (reads : List Nat) :
    Option (Except String Nat × SnowflakeGenerator) :=
  (Snowflake.next_id g.mutex now reads).map (fun r => (r.1, SnowflakeGenerator.mk r.2))

/-- Final state after a sequence of `next_id` calls; each element of the
trace is the clock input of one call.  A call that spins forever (result
`none`) ends the run. -/
def run (s : Snowflake) : List (Nat × List Nat) → Snowflake
  | [] => s
  | (now, reads) :: rest =>
    match Snowflake.next_id s now reads with
    | none => s
    | some (_, t) => run t rest

/-- Outputs of the successful calls of a run: for each call that returned
`Ok id`, the triple (id, last_timestamp after the call, sequence after the
call) — the latter two being the composite key of the emitted id. -/
def runOut (s : Snowflake) : List (Nat × List Nat) → List (Nat × Nat × Nat)
  | [] => []
  | (now, reads) :: rest =>
    match Snowflake.next_id s now reads with
    | none => []
    | some (Except.error _, t) => runOut t rest
    | some (Except.ok id, t) => (id, t.last_timestamp, t.sequence) :: runOut t rest

/-- Strict lexicographic order on (timestamp, sequence) composite keys. -/
def keyLt (a b : Nat × Nat) : Prop := a.1 < b.1 ∨ (a.1 = b.1 ∧ a.2 < b.2)

instance (a b : Nat × Nat) : Decidable (keyLt a b) := by
  unfold keyLt; infer_instance

/-- Worker-id extraction from the test `test_id_structure`. -/
def decoded_worker_id (id : Nat) : Nat := (id >>> WORKER_ID_SHIFT) &&& MAX_WORKER_ID

/-- Datacenter-id extraction from the test `test_id_structure`. -/
def decoded_datacenter_id (id : Nat) : Nat :=
  (id >>> DATACENTER_ID_SHIFT) &&& MAX_DATACENTER_ID

/-- Timestamp extraction from the test `test_id_structure`. -/
def decoded_timestamp (id : Nat) : Nat := (id >>> TIMESTAMP_SHIFT) + EPOCH

/-! ### Basic facts about the constants and the clock-wait loop -/

theorem max_sequence_eq : MAX_SEQUENCE = 4095 := by decide

theorem max_worker_eq : MAX_WORKER_ID = 31 := by decide

theorem max_datacenter_eq : MAX_DATACENTER_ID = 31 := by decide

theorem timestamp_shift_eq : TIMESTAMP_SHIFT = 22 := by decide

theorem datacenter_shift_eq : DATACENTER_ID_SHIFT = 17 := by decide

theorem worker_shift_eq : WORKER_ID_SHIFT = 12 := by decide

theorem and_max_seq (n : Nat) : n &&& MAX_SEQUENCE = n % 4096 := by
  have h := Nat.and_pow_two_sub_one_eq_mod n 12
  norm_num at h
  rw [max_sequence_eq]
  exact h

theorem til_next_millis_some {last t : Nat} :
    ∀ {reads : List Nat}, til_next_millis last reads = some t → last < t ∧ t ∈ reads := by
  intro reads
  induction reads with
  | nil => intro h; simp [til_next_millis] at h
  | cons x xs ih =>
    intro h
    by_cases hx : x ≤ last
    · rw [til_next_millis, if_pos hx] at h
      rcases ih h with ⟨h1, h2⟩
      exact ⟨h1, List.mem_cons_of_mem x h2⟩
    · rw [til_next_millis, if_neg hx] at h
      have hxt : x = t := Option.some.inj h
      subst hxt
      exact ⟨Nat.lt_of_not_le hx, List.mem_cons_self x xs⟩

theorem til_next_millis_none {last : Nat} :
    ∀ {reads : List Nat}, til_next_millis last reads = none ↔ ∀ x ∈ reads, x ≤ last := by
  intro reads
  induction reads with
  | nil => simp [til_next_millis]
  | cons x xs ih =>
    by_cases hx : x ≤ last
    · rw [til_next_millis, if_pos hx]
      simp [ih, hx]
    · rw [til_next_millis, if_neg hx]
      simp [hx]

theorem til_next_millis_isSome {last : Nat} {reads : List Nat}
    (h : ∃ x ∈ reads, last < x) : ∃ t, til_next_millis last reads = some t ∧ last < t := by
  cases hc : til_next_millis last reads with
  | none =>
    rcases h with ⟨x, hx, hlt⟩
    exact absurd (til_next_millis_none.mp hc x hx) (Nat.not_le_of_lt hlt)
  | some t => exact ⟨t, rfl, (til_next_millis_some hc).1⟩

/-! ### Case analysis of a single next_id call -/

theorem next_id_spec (s : Snowflake) (now : Nat) (reads : List Nat) :
    (now < s.last_timestamp ∧
      Snowflake.next_id s now reads = some (Except.error clockErrMsg, s)) ∨
    (now = s.last_timestamp ∧ (s.sequence + 1) &&& MAX_SEQUENCE ≠ 0 ∧
      Snowflake.next_id s now reads =
        some (Except.ok (mkId now s.datacenter_id s.worker_id ((s.sequence + 1) &&& MAX_SEQUENCE)),
          { s with last_timestamp := now, sequence := (s.sequence + 1) &&& MAX_SEQUENCE })) ∨
    (now = s.last_timestamp ∧ (s.sequence + 1) &&& MAX_SEQUENCE = 0 ∧
      ((∃ t, til_next_millis s.last_timestamp reads = some t ∧ s.last_timestamp < t ∧
        Snowflake.next_id s now reads =
          some (Except.ok (mkId t s.datacenter_id s.worker_id 0),
            { s with last_timestamp := t, sequence := 0 })) ∨
       (til_next_millis s.last_timestamp reads = none ∧
        Snowflake.next_id s now reads = none))) ∨
    (s.last_timestamp < now ∧
      Snowflake.next_id s now reads =
        some (Except.ok (mkId now s.datacenter_id s.worker_id 0),
          { s with last_timestamp := now, sequence := 0 })) := by
  by_cases h1 : now < s.last_timestamp
  · left
    exact ⟨h1, by unfold Snowflake.next_id; rw [if_pos h1]⟩
  · by_cases h2 : now = s.last_timestamp
    · by_cases h3 : (s.sequence + 1) &&& MAX_SEQUENCE = 0
      · right; right; left
        refine ⟨h2, h3, ?_⟩
        cases hc : til_next_millis s.last_timestamp reads with
        | none =>
          right
          exact ⟨rfl, by unfold Snowflake.next_id; rw [if_neg h1, if_pos h2, if_pos h3, hc]⟩
        | some t =>
          left
          exact ⟨t, rfl, (til_next_millis_some hc).1,
            by unfold Snowflake.next_id; rw [if_neg h1, if_pos h2, if_pos h3, hc]⟩
      · right; left
        exact ⟨h2, h3, by unfold Snowflake.next_id; rw [if_neg h1, if_pos h2, if_neg h3]⟩
    · right; right; right
      have hgt : s.last_timestamp < now := by omega
      exact ⟨hgt, by unfold Snowflake.next_id; rw [if_neg h1, if_neg h2]⟩

theorem next_id_error_elim {s : Snowflake} {now : Nat} {reads : List Nat} {e : String}
    {t : Snowflake} (h : Snowflake.next_id s now reads = some (Except.error e, t)) :
    now < s.last_timestamp ∧ t = s ∧ e = clockErrMsg := by
  rcases next_id_spec s now reads with ⟨h1, hb⟩ | ⟨h1, h2, hb⟩ | ⟨h1, h2, ⟨x, hc, hx, hb⟩ | ⟨hc, hb⟩⟩ | ⟨h1, hb⟩
  · rw [hb] at h
    simp only [Option.some.injEq, Prod.mk.injEq, Except.error.injEq] at h
    exact ⟨h1, h.2.symm, h.1.symm⟩
  · rw [hb] at h; simp at h
  · rw [hb] at h; simp at h
  · rw [hb] at h; simp at h
  · rw [hb] at h; simp at h

theorem next_id_ok_core {s : Snowflake} {now : Nat} {reads : List Nat} {id : Nat}
    {t : Snowflake} (h : Snowflake.next_id s now reads = some (Except.ok id, t)) :
    t.sequence ≤ 4095 ∧ s.last_timestamp ≤ t.last_timestamp ∧
    t.worker_id = s.worker_id ∧ t.datacenter_id = s.datacenter_id ∧
    id = mkId t.last_timestamp s.datacenter_id s.worker_id t.sequence := by
  rcases next_id_spec s now reads with ⟨h1, hb⟩ | ⟨h1, h2, hb⟩ | ⟨h1, h2, ⟨x, hc, hx, hb⟩ | ⟨hc, hb⟩⟩ | ⟨h1, hb⟩
  · rw [hb] at h; simp at h
  · rw [hb] at h
    simp only [Option.some.injEq, Prod.mk.injEq, Except.ok.injEq] at h
    rcases h with ⟨hid, hst⟩
    subst hst
    refine ⟨?_, ?_, rfl, rfl, hid.symm⟩
    · show (s.sequence + 1) &&& MAX_SEQUENCE ≤ 4095
      rw [and_max_seq]; omega
    · show s.last_timestamp ≤ now
      omega
  · rw [hb] at h
    simp only [Option.some.injEq, Prod.mk.injEq, Except.ok.injEq] at h
    rcases h with ⟨hid, hst⟩
    subst hst
    exact ⟨Nat.zero_le _, Nat.le_of_lt hx, rfl, rfl, hid.symm⟩
  · rw [hb] at h; simp at h
  · rw [hb] at h
    simp only [Option.some.injEq, Prod.mk.injEq, Except.ok.injEq] at h
    rcases h with ⟨hid, hst⟩
    subst hst
    exact ⟨Nat.zero_le _, Nat.le_of_lt h1, rfl, rfl, hid.symm⟩

theorem next_id_ok_keyLt {s : Snowflake} {now : Nat} {reads : List Nat} {id : Nat}
    {t : Snowflake} (hseq : s.sequence ≤ 4095)
    (h : Snowflake.next_id s now reads = some (Except.ok id, t)) :
    keyLt (s.last_timestamp, s.sequence) (t.last_timestamp, t.sequence) := by
  rcases next_id_spec s now reads with ⟨h1, hb⟩ | ⟨h1, h2, hb⟩ | ⟨h1, h2, ⟨x, hc, hx, hb⟩ | ⟨hc, hb⟩⟩ | ⟨h1, hb⟩
  · rw [hb] at h; simp at h
  · rw [hb] at h
    simp only [Option.some.injEq, Prod.mk.injEq, Except.ok.injEq] at h
    rcases h with ⟨hid, hst⟩
    subst hst
    rw [and_max_seq] at h2 ⊢
    right
    constructor
    · exact h1.symm
    · show s.sequence < (s.sequence + 1) % 4096
      omega
  · rw [hb] at h
    simp only [Option.some.injEq, Prod.mk.injEq, Except.ok.injEq] at h
    rcases h with ⟨hid, hst⟩
    subst hst
    left
    exact hx
  · rw [hb] at h; simp at h
  · rw [hb] at h
    simp only [Option.some.injEq, Prod.mk.injEq, Except.ok.injEq] at h
    rcases h with ⟨hid, hst⟩
    subst hst
    left
    exact h1

theorem next_id_none_iff {s : Snowflake} {now : Nat} {reads : List Nat} :
    Snowflake.next_id s now reads = none ↔
      now = s.last_timestamp ∧ (s.sequence + 1) &&& MAX_SEQUENCE = 0 ∧
        ∀ x ∈ reads, x ≤ s.last_timestamp := by
  constructor
  · intro h
    rcases next_id_spec s now reads with ⟨h1, hb⟩ | ⟨h1, h2, hb⟩ | ⟨h1, h2, ⟨x, hc, hx, hb⟩ | ⟨hc, hb⟩⟩ | ⟨h1, hb⟩
    · rw [hb] at h; simp at h
    · rw [hb] at h; simp at h
    · rw [hb] at h; simp at h
    · exact ⟨h1, h2, til_next_millis_none.mp hc⟩
    · rw [hb] at h; simp at h
  · rintro ⟨h1, h2, h3⟩
    have hc : til_next_millis s.last_timestamp reads = none := til_next_millis_none.mpr h3
    unfold Snowflake.next_id
    rw [if_neg (by omega), if_pos h1, if_pos h2, hc]

/-! ### Arithmetic form of the id assembly -/

theorem wrapSub_lt (a b : Nat) : wrapSub a b < 2 ^ 64 := by
  unfold wrapSub U64
  exact Nat.mod_lt _ (by norm_num)

theorem mkId_eq_add {d w seq : Nat} (t : Nat) (hd : d ≤ 31) (hw : w ≤ 31)
    (hs : seq ≤ 4095) :
    mkId t d w seq = wrapSub t EPOCH % 2 ^ 42 * 2 ^ 22 + d * 2 ^ 17 + w * 2 ^ 12 + seq := by
  unfold mkId
  rw [timestamp_shift_eq, datacenter_shift_eq, worker_shift_eq]
  rw [Nat.shiftLeft_eq, Nat.shiftLeft_eq, Nat.shiftLeft_eq]
  rw [Nat.lor_assoc, Nat.lor_assoc]
  have hU : U64 = 2 ^ 42 * 2 ^ 22 := by unfold U64; norm_num
  have h3 : wrapSub t EPOCH * 2 ^ 22 % U64 = 2 ^ 22 * (wrapSub t EPOCH % 2 ^ 42) := by
    rw [hU, Nat.mul_mod_mul_right, Nat.mul_comm]
  have h2 : d * 2 ^ 17 % U64 = 2 ^ 17 * d := by
    unfold U64
    rw [Nat.mod_eq_of_lt (by omega), Nat.mul_comm]
  have h1 : w * 2 ^ 12 % U64 = 2 ^ 12 * w := by
    unfold U64
    rw [Nat.mod_eq_of_lt (by omega), Nat.mul_comm]
  rw [h1, h2, h3]
  rw [← Nat.mul_add_lt_is_or (by omega) w]
  rw [← Nat.mul_add_lt_is_or (i := 17) (by omega) d]
  rw [← Nat.mul_add_lt_is_or (i := 22) (by omega) (wrapSub t EPOCH % 2 ^ 42)]
  ring

theorem wrapSub_of_ge {t : Nat} (h1 : EPOCH ≤ t) (h2 : t - EPOCH < 2 ^ 64) :
    wrapSub t EPOCH = t - EPOCH := by
  unfold wrapSub U64 EPOCH at *
  omega

theorem decoded_worker_id_eq (id : Nat) : decoded_worker_id id = id / 2 ^ 12 % 2 ^ 5 := by
  unfold decoded_worker_id
  rw [worker_shift_eq, max_worker_eq, Nat.shiftRight_eq_div_pow]
  have h := Nat.and_pow_two_sub_one_eq_mod (id / 2 ^ 12) 5
  norm_num at h ⊢
  exact h

theorem decoded_datacenter_id_eq (id : Nat) :
    decoded_datacenter_id id = id / 2 ^ 17 % 2 ^ 5 := by
  unfold decoded_datacenter_id
  rw [datacenter_shift_eq, max_datacenter_eq, Nat.shiftRight_eq_div_pow]
  have h := Nat.and_pow_two_sub_one_eq_mod (id / 2 ^ 17) 5
  norm_num at h ⊢
  exact h

theorem decoded_timestamp_eq (id : Nat) : decoded_timestamp id = id / 2 ^ 22 + EPOCH := by
  unfold decoded_timestamp
  rw [timestamp_shift_eq, Nat.shiftRight_eq_div_pow]

theorem mkId_decode {t d w seq : Nat} (hd : d ≤ 31) (hw : w ≤ 31) (hs : seq ≤ 4095)
    (h1 : EPOCH ≤ t) (h2 : t - EPOCH < 2 ^ 42) :
    decoded_worker_id (mkId t d w seq) = w ∧
    decoded_datacenter_id (mkId t d w seq) = d ∧
    decoded_timestamp (mkId t d w seq) = t ∧
    mkId t d w seq % 2 ^ 12 = seq := by
  have hws : wrapSub t EPOCH = t - EPOCH := wrapSub_of_ge h1 (by omega)
  have hmod : wrapSub t EPOCH % 2 ^ 42 = t - EPOCH := by rw [hws]; omega
  have hadd := mkId_eq_add t hd hw hs
  rw [hmod] at hadd
  refine ⟨?_, ?_, ?_, ?_⟩
  · rw [decoded_worker_id_eq, hadd]; omega
  · rw [decoded_datacenter_id_eq, hadd]; omega
  · rw [decoded_timestamp_eq, hadd]; omega
  · rw [hadd]; omega

theorem mkId_inj {t1 t2 d w s1 s2 : Nat} (hd : d ≤ 31) (hw : w ≤ 31)
    (hs1 : s1 ≤ 4095) (hs2 : s2 ≤ 4095)
    (ht1 : EPOCH ≤ t1) (ht1b : t1 < EPOCH + 2 ^ 42)
    (ht2 : EPOCH ≤ t2) (ht2b : t2 < EPOCH + 2 ^ 42)
    (h : mkId t1 d w s1 = mkId t2 d w s2) : t1 = t2 ∧ s1 = s2 := by
  rcases mkId_decode hd hw hs1 ht1 (by omega) with ⟨-, -, hts1, hseq1⟩
  rcases mkId_decode hd hw hs2 ht2 (by omega) with ⟨-, -, hts2, hseq2⟩
  constructor
  · rw [← hts1, ← hts2, h]
  · rw [← hseq1, ← hseq2, h]

/-! ### Facts about whole runs -/

theorem keyLt_trans {a b c : Nat × Nat} (h1 : keyLt a b) (h2 : keyLt b c) : keyLt a c := by
  unfold keyLt at *
  omega

theorem runOut_spec (trace : List (Nat × List Nat)) :
    ∀ s : Snowflake, s.sequence ≤ 4095 →
      (∀ e ∈ runOut s trace,
          keyLt (s.last_timestamp, s.sequence) e.2 ∧
          e.1 = mkId e.2.1 s.datacenter_id s.worker_id e.2.2 ∧ e.2.2 ≤ 4095) ∧
      List.Pairwise (fun a b : Nat × Nat × Nat => keyLt a.2 b.2) (runOut s trace) := by
  induction trace with
  | nil =>
    intro s hs
    simp [runOut]
  | cons c rest ih =>
    intro s hs
    obtain ⟨now, reads⟩ := c
    cases hc : Snowflake.next_id s now reads with
    | none => simp [runOut, hc]
    | some val =>
      obtain ⟨r, t⟩ := val
      cases r with
      | error e =>
        obtain ⟨-, hts, -⟩ := next_id_error_elim hc
        subst hts
        have hrw : runOut t ((now, reads) :: rest) = runOut t rest := by
          simp [runOut, hc]
        rw [hrw]
        exact ih t hs
      | ok id =>
        rcases next_id_ok_core hc with ⟨ht4095, hlast, hw, hd, hid⟩
        have hkey := next_id_ok_keyLt hs hc
        have hrw : runOut s ((now, reads) :: rest) =
            (id, t.last_timestamp, t.sequence) :: runOut t rest := by
          simp [runOut, hc]
        rw [hrw]
        rcases ih t ht4095 with ⟨ihmem, ihpw⟩
        constructor
        · intro e he
          rcases List.mem_cons.mp he with he | he
          · subst he
            exact ⟨hkey, hid, ht4095⟩
          · rcases ihmem e he with ⟨hk, hm, hb⟩
            refine ⟨keyLt_trans hkey hk, ?_, hb⟩
            rw [hm, hd, hw]
        · refine List.Pairwise.cons ?_ ihpw
          intro e he
          exact (ihmem e he).1

theorem run_spec (trace : List (Nat × List Nat)) :
    ∀ s : Snowflake, s.sequence ≤ 4095 →
      (run s trace).sequence ≤ 4095 ∧
      s.last_timestamp ≤ (run s trace).last_timestamp ∧
      (run s trace).worker_id = s.worker_id ∧
      (run s trace).datacenter_id = s.datacenter_id := by
  induction trace with
  | nil =>
    intro s hs
    exact ⟨hs, Nat.le_refl _, rfl, rfl⟩
  | cons c rest ih =>
    intro s hs
    obtain ⟨now, reads⟩ := c
    cases hc : Snowflake.next_id s now reads with
    | none =>
      have hrw : run s ((now, reads) :: rest) = s := by simp [run, hc]
      rw [hrw]
      exact ⟨hs, Nat.le_refl _, rfl, rfl⟩
    | some val =>
      obtain ⟨r, t⟩ := val
      have hrw : run s ((now, reads) :: rest) = run t rest := by simp [run, hc]
      cases r with
      | error e =>
        obtain ⟨-, hts, -⟩ := next_id_error_elim hc
        subst hts
        rw [hrw]
        exact ih t hs
      | ok id =>
        rcases next_id_ok_core hc with ⟨ht4095, hlast, hw, hd, -⟩
        rw [hrw]
        rcases ih t ht4095 with ⟨a1, a2, a3, a4⟩
        exact ⟨a1, Nat.le_trans hlast a2, by rw [a3, hw], by rw [a4, hd]⟩

theorem run_const (T w d : Nat) :
    ∀ (n k : Nat), k + n ≤ 4095 →
      run ⟨T, k, w, d⟩ (List.replicate n (T, [])) = ⟨T, k + n, w, d⟩ := by
  intro n
  induction n with
  | zero =>
    intro k hk
    simp [run]
  | succ m ih =>
    intro k hk
    have hm2 : (k + 1) &&& MAX_SEQUENCE = k + 1 := by rw [and_max_seq]; omega
    have hstep : Snowflake.next_id ⟨T, k, w, d⟩ T [] =
        some (Except.ok (mkId T d w (k + 1)), ⟨T, k + 1, w, d⟩) := by
      simp [Snowflake.next_id, hm2]
    have hrun : run ⟨T, k, w, d⟩ (List.replicate (m + 1) (T, [])) =
        run ⟨T, k + 1, w, d⟩ (List.replicate m (T, [])) := by
      rw [List.replicate_succ]
      simp [run, hstep]
    rw [hrun, ih (k + 1) (by omega)]
    have hkm : k + 1 + m = k + (m + 1) := by omega
    rw [hkm]

theorem new_ok_elim {w d : Nat} {s : Snowflake} (h : Snowflake.new w d = Except.ok s) :
    s = ⟨0, 0, w, d⟩ ∧ w ≤ 31 ∧ d ≤ 31 := by
  unfold Snowflake.new at h
  rw [max_worker_eq, max_datacenter_eq] at h
  by_cases hc : w > 31 ∨ d > 31
  · rw [if_pos hc] at h
    simp at h
  · rw [if_neg hc] at h
    have he := Except.ok.inj h
    push_neg at hc
    exact ⟨he.symm, hc.1, hc.2⟩

/-! ### The claims -/

/-- Claim C2: `next_id` returns the clock error exactly when the reading is
strictly below `last_timestamp`; on that failure the state is unchanged and a
later call with a valid reading succeeds; the only other non-returning
behaviour is the internal spin when the sequence is exhausted and the clock
never advances — never a surfaced error. -/
theorem C2_clock_error_characterization (s : Snowflake) (now : Nat) (reads : List Nat) :
    ((∃ e t, Snowflake.next_id s now reads = some (Except.error e, t)) ↔
      now < s.last_timestamp) ∧
    (now < s.last_timestamp →
      Snowflake.next_id s now reads = some (Except.error clockErrMsg, s)) ∧
    (Snowflake.next_id s now reads = none ↔
      now = s.last_timestamp ∧ (s.sequence + 1) &&& MAX_SEQUENCE = 0 ∧
        ∀ x ∈ reads, x ≤ s.last_timestamp) ∧
    (s.last_timestamp ≤ now →
      (∃ id t, Snowflake.next_id s now reads = some (Except.ok id, t)) ∨
        Snowflake.next_id s now reads = none) ∧
    (∀ later : Nat, s.last_timestamp < later →
      ∃ id t, Snowflake.next_id s later [] = some (Except.ok id, t)) := by
  refine ⟨⟨?_, ?_⟩, ?_, next_id_none_iff, ?_, ?_⟩
  · rintro ⟨e, t, h⟩
    exact (next_id_error_elim h).1
  · intro h
    exact ⟨clockErrMsg, s, by unfold Snowflake.next_id; rw [if_pos h]⟩
  · intro h
    unfold Snowflake.next_id
    rw [if_pos h]
  · intro h
    rcases next_id_spec s now reads with ⟨h1, hb⟩ | ⟨h1, h2, hb⟩ |
      ⟨h1, h2, ⟨x, hc, hx, hb⟩ | ⟨hc, hb⟩⟩ | ⟨h1, hb⟩
    · exact absurd h1 (Nat.not_lt.mpr h)
    · exact Or.inl ⟨_, _, hb⟩
    · exact Or.inl ⟨_, _, hb⟩
    · exact Or.inr hb
    · exact Or.inl ⟨_, _, hb⟩
  · intro later hlater
    rcases next_id_spec s later [] with ⟨h1, hb⟩ | ⟨h1, h2, hb⟩ |
      ⟨h1, h2, ⟨x, hc, hx, hb⟩ | ⟨hc, hb⟩⟩ | ⟨h1, hb⟩
    · exact absurd h1 (by omega)
    · exact absurd h1 (by omega)
    · exact absurd h1 (by omega)
    · exact absurd h1 (by omega)
    · exact ⟨_, _, hb⟩

/-- Witness for C2 at a concrete regressed clock. -/
theorem C2_witness :
    Snowflake.next_id ⟨10, 0, 1, 1⟩ 5 [] = some (Except.error clockErrMsg, ⟨10, 0, 1, 1⟩) :=
  (C2_clock_error_characterization ⟨10, 0, 1, 1⟩ 5 []).2.1 (by decide)

/-- Claim C5: construction succeeds exactly for worker and datacenter ids in
[0, 31], yielding the initial state (0, 0, worker, datacenter); otherwise a
ConfigError is returned and nothing is constructed; the facade constructor
delegates to the core one. -/
theorem C5_new_validation (w d : Nat) :
    (Snowflake.new w d = Except.ok ⟨0, 0, w, d⟩ ↔ w ≤ 31 ∧ d ≤ 31) ∧
    ((∃ e, Snowflake.new w d = Except.error e) ↔ 31 < w ∨ 31 < d) ∧
    SnowflakeGenerator.new w d = (Snowflake.new w d).map SnowflakeGenerator.mk := by
  refine ⟨⟨?_, ?_⟩, ⟨?_, ?_⟩, rfl⟩
  · intro h
    rcases new_ok_elim h with ⟨-, h1, h2⟩
    exact ⟨h1, h2⟩
  · rintro ⟨h1, h2⟩
    unfold Snowflake.new
    rw [max_worker_eq, max_datacenter_eq, if_neg (by omega)]
  · rintro ⟨e, h⟩
    unfold Snowflake.new at h
    rw [max_worker_eq, max_datacenter_eq] at h
    by_cases hc : w > 31 ∨ d > 31
    · exact hc
    · rw [if_neg hc] at h
      simp at h
  · intro hc
    refine ⟨rangeErrMsg, ?_⟩
    unfold Snowflake.new
    rw [max_worker_eq, max_datacenter_eq, if_pos hc]

/-- Witness for C5 at w = 5, d = 10 (success) and at the boundary failures
w = 32 and d = 32. -/
theorem C5_witness :
    Snowflake.new 5 10 = Except.ok ⟨0, 0, 5, 10⟩ ∧
    (∃ e, Snowflake.new 32 0 = Except.error e) ∧
    (∃ e, Snowflake.new 0 32 = Except.error e) :=
  ⟨(C5_new_validation 5 10).1.mpr (by omega), (C5_new_validation 32 0).2.1.mpr (by omega),
    (C5_new_validation 0 32).2.1.mpr (by omega)⟩

/-- Claim C6: in every state reachable from a fresh generator the sequence
field stays in [0, 4095] and the worker and datacenter ids are the
constructed ones; moreover each single call (successful or failing) never
decreases `last_timestamp` and never touches the worker and datacenter ids. -/
theorem C6_state_invariants (w d : Nat) (s0 : Snowflake) (trace : List (Nat × List Nat))
    (h : Snowflake.new w d = Except.ok s0) :
    (run s0 trace).sequence ≤ 4095 ∧
    (run s0 trace).worker_id = w ∧ (run s0 trace).datacenter_id = d ∧
    (∀ (s : Snowflake) (now : Nat) (reads : List Nat) (r : Except String Nat)
        (t : Snowflake), s.sequence ≤ 4095 →
      Snowflake.next_id s now reads = some (r, t) →
        s.last_timestamp ≤ t.last_timestamp ∧ t.sequence ≤ 4095 ∧
        t.worker_id = s.worker_id ∧ t.datacenter_id = s.datacenter_id) := by
  obtain ⟨hs0, hw, hd⟩ := new_ok_elim h
  subst hs0
  rcases run_spec trace ⟨0, 0, w, d⟩ (Nat.zero_le _) with ⟨a1, a2, a3, a4⟩
  refine ⟨a1, a3, a4, ?_⟩
  intro s now reads r t hseq hc
  cases r with
  | error e =>
    obtain ⟨-, hts, -⟩ := next_id_error_elim hc
    subst hts
    exact ⟨Nat.le_refl _, hseq, rfl, rfl⟩
  | ok id =>
    rcases next_id_ok_core hc with ⟨h1, h2, h3, h4, -⟩
    exact ⟨h2, h1, h3, h4⟩

/-- Witness for C6 on a concrete three-call trace. -/
theorem C6_witness :
    (run ⟨0, 0, 1, 1⟩ [(5, []), (3, []), (7, [])]).sequence ≤ 4095 ∧
    (run ⟨0, 0, 1, 1⟩ [(5, []), (3, []), (7, [])]).worker_id = 1 :=
  ⟨(C6_state_invariants 1 1 ⟨0, 0, 1, 1⟩ [(5, []), (3, []), (7, [])] rfl).1,
    (C6_state_invariants 1 1 ⟨0, 0, 1, 1⟩ [(5, []), (3, []), (7, [])] rfl).2.1⟩

/-- Claim C8: if some available clock reading strictly exceeds
`last_timestamp` then the busy-wait loop finds it and the whole `next_id`
call returns (with an ok id or the clock error); it never fails to return
under that precondition. -/
theorem C8_spin_terminates (s : Snowflake) (now : Nat) (reads : List Nat)
    (h : ∃ x ∈ reads, s.last_timestamp < x) :
    (∃ t, til_next_millis s.last_timestamp reads = some t ∧ s.last_timestamp < t) ∧
    ∃ r u, Snowflake.next_id s now reads = some (r, u) := by
  refine ⟨til_next_millis_isSome h, ?_⟩
  rcases next_id_spec s now reads with ⟨h1, hb⟩ | ⟨h1, h2, hb⟩ |
    ⟨h1, h2, ⟨x, hc, hx, hb⟩ | ⟨hc, hb⟩⟩ | ⟨h1, hb⟩
  · exact ⟨_, _, hb⟩
  · exact ⟨_, _, hb⟩
  · exact ⟨_, _, hb⟩
  · rcases til_next_millis_isSome h with ⟨t, ht, -⟩
    rw [hc] at ht
    simp at ht
  · exact ⟨_, _, hb⟩

/-- Witness for C8 with the sequence exhausted and a reading that advances. -/
theorem C8_witness :
    ∃ r u, Snowflake.next_id ⟨50, 4095, 1, 1⟩ 50 [50, 51] = some (r, u) :=
  (C8_spin_terminates ⟨50, 4095, 1, 1⟩ 50 [50, 51] (by decide)).2

/-- Claim C10: a freshly constructed generator has `last_timestamp = 0`, so
its first `next_id` call can never take the clock-regression error branch. -/
theorem C10_first_call_never_clock_error (w d : Nat) (s0 : Snowflake) (now : Nat)
    (reads : List Nat) (e : String) (t : Snowflake)
    (h : Snowflake.new w d = Except.ok s0) :
    Snowflake.next_id s0 now reads ≠ some (Except.error e, t) := by
  intro hc
  obtain ⟨hs0, -, -⟩ := new_ok_elim h
  subst hs0
  exact Nat.not_lt_zero now (next_id_error_elim hc).1

/-- Witness for C10 on a concrete first call. -/
theorem C10_witness :
    Snowflake.next_id ⟨0, 0, 1, 1⟩ 5 [] ≠ some (Except.error clockErrMsg, ⟨0, 0, 1, 1⟩) :=
  C10_first_call_never_clock_error 1 1 ⟨0, 0, 1, 1⟩ 5 [] clockErrMsg ⟨0, 0, 1, 1⟩ rfl

theorem mkId_plain {t d w seq : Nat} (hd : d ≤ 31) (hw : w ≤ 31) (hs : seq ≤ 4095)
    (h1 : EPOCH ≤ t) (h2 : t < EPOCH + 2 ^ 42) :
    mkId t d w seq = ((t - EPOCH) <<< TIMESTAMP_SHIFT) ||| (d <<< DATACENTER_ID_SHIFT)
      ||| (w <<< WORKER_ID_SHIFT) ||| seq := by
  have hws : wrapSub t EPOCH = t - EPOCH := wrapSub_of_ge h1 (by omega)
  have hL := mkId_eq_add t hd hw hs
  rw [hws] at hL
  have hmod : (t - EPOCH) % 2 ^ 42 = t - EPOCH := Nat.mod_eq_of_lt (by omega)
  rw [hmod] at hL
  rw [hL, timestamp_shift_eq, datacenter_shift_eq, worker_shift_eq]
  rw [Nat.shiftLeft_eq, Nat.shiftLeft_eq, Nat.shiftLeft_eq]
  rw [Nat.lor_assoc, Nat.lor_assoc]
  rw [Nat.mul_comm (t - EPOCH), Nat.mul_comm d, Nat.mul_comm w]
  rw [← Nat.mul_add_lt_is_or (i := 12) (by omega) w]
  rw [← Nat.mul_add_lt_is_or (i := 17) (by omega) d]
  rw [← Nat.mul_add_lt_is_or (i := 22) (by omega) (t - EPOCH)]
  ring

/-- Claim C4: every id returned by a successful call is exactly the packing
of the adopted timestamp, the stored datacenter and worker ids and the
post-update sequence; when the adopted timestamp lies in the representable
window the packing agrees with the plain (non-wrapping) formula of the spec. -/
theorem C4_id_formula (s : Snowflake) (now : Nat) (reads : List Nat) (id : Nat)
    (t : Snowflake) (h : Snowflake.next_id s now reads = some (Except.ok id, t)) :
    id = mkId t.last_timestamp s.datacenter_id s.worker_id t.sequence ∧
    (s.datacenter_id ≤ 31 → s.worker_id ≤ 31 → EPOCH ≤ t.last_timestamp →
      t.last_timestamp < EPOCH + 2 ^ 42 →
      id = ((t.last_timestamp - EPOCH) <<< TIMESTAMP_SHIFT)
            ||| (s.datacenter_id <<< DATACENTER_ID_SHIFT)
            ||| (s.worker_id <<< WORKER_ID_SHIFT)
            ||| t.sequence) := by
  rcases next_id_ok_core h with ⟨hseq, -, -, -, hid⟩
  refine ⟨hid, ?_⟩
  intro hd hw h1 h2
  rw [hid]
  exact mkId_plain hd hw hseq h1 h2

/-- Witness for C4 on a concrete first call past the epoch. -/
theorem C4_witness :
    mkId 1609459200123 7 3 0 =
      ((1609459200123 - EPOCH) <<< TIMESTAMP_SHIFT) ||| (7 <<< DATACENTER_ID_SHIFT)
        ||| (3 <<< WORKER_ID_SHIFT) ||| 0 :=
  (C4_id_formula ⟨0, 0, 3, 7⟩ 1609459200123 [] (mkId 1609459200123 7 3 0)
      ⟨1609459200123, 0, 3, 7⟩ rfl).2 (by decide) (by decide) (by decide) (by decide)

/-- Claim C7: decoding per the documented layout is a round-trip inverse of
the packing for every valid worker and datacenter pair when the timestamp
offset fits the 41-bit field; in particular a generator built with
new(5, 10) emits ids that decode to worker 5, datacenter 10 and exactly the
adopted clock value. -/
theorem C7_decodability :
    (∀ t d w seq : Nat, d ≤ 31 → w ≤ 31 → seq ≤ 4095 → EPOCH ≤ t →
      t - EPOCH < 2 ^ 41 →
      decoded_worker_id (mkId t d w seq) = w ∧
      decoded_datacenter_id (mkId t d w seq) = d ∧
      decoded_timestamp (mkId t d w seq) = t) ∧
    (∀ (s0 : Snowflake) (now : Nat) (reads : List Nat) (id : Nat) (t : Snowflake),
      Snowflake.new 5 10 = Except.ok s0 →
      Snowflake.next_id s0 now reads = some (Except.ok id, t) →
      EPOCH ≤ t.last_timestamp → t.last_timestamp - EPOCH < 2 ^ 41 →
      decoded_worker_id id = 5 ∧ decoded_datacenter_id id = 10 ∧
      decoded_timestamp id = t.last_timestamp) := by
  constructor
  · intro t d w seq hd hw hs h1 h2
    rcases mkId_decode hd hw hs h1 (by omega) with ⟨a, b, c, -⟩
    exact ⟨a, b, c⟩
  · intro s0 now reads id t hnew hc h1 h2
    obtain ⟨hs0, -, -⟩ := new_ok_elim hnew
    subst hs0
    rcases next_id_ok_core hc with ⟨hseq, -, -, -, hid⟩
    have hid2 : id = mkId t.last_timestamp 10 5 t.sequence := hid
    rcases mkId_decode (d := 10) (w := 5) (by omega) (by omega) hseq h1 (by omega)
      with ⟨a, b, c, -⟩
    rw [hid2]
    exact ⟨a, b, c⟩

/-- Witness for C7 at concrete field values. -/
theorem C7_witness :
    decoded_worker_id (mkId 1609459200777 10 5 9) = 5 ∧
    decoded_datacenter_id (mkId 1609459200777 10 5 9) = 10 ∧
    decoded_timestamp (mkId 1609459200777 10 5 9) = 1609459200777 :=
  C7_decodability.1 1609459200777 10 5 9 (by decide) (by decide) (by decide)
    (by decide) (by decide)

/-- Claim C9: `next_id` never checks the reading against EPOCH: a reading in
[last_timestamp, EPOCH) is accepted, the u64 subtraction wraps, and the
emitted id decodes to `now + 2 ^ 42` instead of `now` — a valid-looking id
that does not follow the documented layout.  (The hypothesis on the equal
reading only rules out the case where the sequence is exhausted and the call
would adopt a later reading instead of `now`.) -/
theorem C9_no_epoch_guard (s : Snowflake) (now : Nat) (reads : List Nat)
    (h1 : s.last_timestamp ≤ now) (h2 : now < EPOCH)
    (h3 : now = s.last_timestamp → (s.sequence + 1) &&& MAX_SEQUENCE ≠ 0)
    (hd : s.datacenter_id ≤ 31) (hw : s.worker_id ≤ 31) :
    ∃ id t, Snowflake.next_id s now reads = some (Except.ok id, t) ∧
      t.last_timestamp = now ∧ decoded_timestamp id = now + 2 ^ 42 ∧
      decoded_timestamp id ≠ now := by
  have h2n : now < 1609459200000 := h2
  have key : ∀ seq : Nat, seq ≤ 4095 →
      decoded_timestamp (mkId now s.datacenter_id s.worker_id seq) = now + 2 ^ 42 := by
    intro seq hs
    have hadd := mkId_eq_add now hd hw hs
    have hwrap : wrapSub now EPOCH % 2 ^ 42 = 2 ^ 42 + now - EPOCH := by
      unfold wrapSub U64 EPOCH
      omega
    rw [decoded_timestamp_eq, hadd, hwrap]
    unfold EPOCH
    omega
  rcases next_id_spec s now reads with ⟨hb1, hb⟩ | ⟨hb1, hb2, hb⟩ |
    ⟨hb1, hb2, hx⟩ | ⟨hb1, hb⟩
  · exact absurd hb1 (Nat.not_lt.mpr h1)
  · refine ⟨_, _, hb, rfl, key _ (by rw [and_max_seq]; omega), ?_⟩
    rw [key _ (by rw [and_max_seq]; omega)]
    omega
  · exact absurd hb2 (h3 hb1)
  · refine ⟨_, _, hb, rfl, key 0 (by omega), ?_⟩
    rw [key 0 (by omega)]
    omega

/-- Witness for C9 with a pre-epoch clock reading. -/
theorem C9_witness :
    ∃ id t, Snowflake.next_id ⟨0, 0, 1, 1⟩ 12345 [] = some (Except.ok id, t) ∧
      t.last_timestamp = 12345 ∧ decoded_timestamp id = 12345 + 2 ^ 42 ∧
      decoded_timestamp id ≠ 12345 :=
  C9_no_epoch_guard ⟨0, 0, 1, 1⟩ 12345 [] (by decide) (by decide) (by decide)
    (by decide) (by decide)

theorem run_cons {s : Snowflake} {now : Nat} {reads : List Nat} {r : Except String Nat}
    {t : Snowflake} {rest : List (Nat × List Nat)}
    (hc : Snowflake.next_id s now reads = some (r, t)) :
    run s ((now, reads) :: rest) = run t rest := by
  simp [run, hc]

/-- Claim C3: on an equal clock reading the sequence is incremented modulo
4096; on wrap to 0 the call adopts the first re-read value strictly above
`last_timestamp` and emits sequence 0; on a strictly larger reading the
sequence resets to 0; concretely, 4096 calls at one stubbed millisecond fill
the sequence to 4095 and the 4097th call emits a strictly advanced timestamp
field with sequence 0. -/
theorem C3_sequence_rollover :
    (∀ (s : Snowflake) (now : Nat) (reads : List Nat),
      now = s.last_timestamp → (s.sequence + 1) &&& MAX_SEQUENCE ≠ 0 →
      (s.sequence + 1) &&& MAX_SEQUENCE = (s.sequence + 1) % 4096 ∧
      Snowflake.next_id s now reads =
        some (Except.ok
            (mkId now s.datacenter_id s.worker_id ((s.sequence + 1) &&& MAX_SEQUENCE)),
          { s with last_timestamp := now,
                   sequence := (s.sequence + 1) &&& MAX_SEQUENCE })) ∧
    (∀ (s : Snowflake) (now : Nat) (reads : List Nat) (t : Nat),
      now = s.last_timestamp → (s.sequence + 1) &&& MAX_SEQUENCE = 0 →
      til_next_millis s.last_timestamp reads = some t →
      s.last_timestamp < t ∧
      Snowflake.next_id s now reads =
        some (Except.ok (mkId t s.datacenter_id s.worker_id 0),
          { s with last_timestamp := t, sequence := 0 })) ∧
    (∀ (s : Snowflake) (now : Nat) (reads : List Nat),
      s.last_timestamp < now →
      Snowflake.next_id s now reads =
        some (Except.ok (mkId now s.datacenter_id s.worker_id 0),
          { s with last_timestamp := now, sequence := 0 })) ∧
    (run ⟨0, 0, 1, 1⟩ ((1609459200000, []) :: List.replicate 4095 (1609459200000, [])) =
        ⟨1609459200000, 4095, 1, 1⟩ ∧
      Snowflake.next_id ⟨1609459200000, 4095, 1, 1⟩ 1609459200000
          [1609459200000, 1609459200001] =
        some (Except.ok (mkId 1609459200001 1 1 0), ⟨1609459200001, 0, 1, 1⟩) ∧
      1609459200000 < 1609459200001 ∧
      decoded_timestamp (mkId 1609459200001 1 1 0) = 1609459200001 ∧
      mkId 1609459200001 1 1 0 &&& MAX_SEQUENCE = 0) := by
  refine ⟨?_, ?_, ?_, ?_, rfl, by decide, rfl, rfl⟩
  · intro s now reads h hne
    refine ⟨and_max_seq _, ?_⟩
    unfold Snowflake.next_id
    rw [if_neg (by omega), if_pos h, if_neg hne]
  · intro s now reads t h h0 hc
    refine ⟨(til_next_millis_some hc).1, ?_⟩
    unfold Snowflake.next_id
    rw [if_neg (by omega), if_pos h, if_pos h0, hc]
  · intro s now reads h
    unfold Snowflake.next_id
    rw [if_neg (by omega), if_neg (by omega)]
  · have h1 : Snowflake.next_id ⟨0, 0, 1, 1⟩ 1609459200000 [] =
        some (Except.ok (mkId 1609459200000 1 1 0), ⟨1609459200000, 0, 1, 1⟩) := rfl
    have h2 : run ⟨0, 0, 1, 1⟩
        ((1609459200000, []) :: List.replicate 4095 (1609459200000, [])) =
        run ⟨1609459200000, 0, 1, 1⟩ (List.replicate 4095 (1609459200000, [])) :=
      run_cons h1
    rw [h2]
    have h3 := run_const 1609459200000 1 1 4095 0 (by omega)
    have h4 : (0 : Nat) + 4095 = 4095 := by norm_num
    rw [h4] at h3
    exact h3

/-- Witness for C3: the concrete 4096-call fill and the rolling-over
4097th call. -/
theorem C3_witness :
    run ⟨0, 0, 1, 1⟩ ((1609459200000, []) :: List.replicate 4095 (1609459200000, [])) =
      ⟨1609459200000, 4095, 1, 1⟩ ∧
    Snowflake.next_id ⟨1609459200000, 4095, 1, 1⟩ 1609459200000
        [1609459200000, 1609459200001] =
      some (Except.ok (mkId 1609459200001 1 1 0), ⟨1609459200001, 0, 1, 1⟩) :=
  ⟨C3_sequence_rollover.2.2.2.1, C3_sequence_rollover.2.2.2.2.1⟩

/-- Counterexample to C1 as stated: two successful calls of one generator,
with strictly increasing (timestamp, sequence) keys, both return the id
135168 — the readings EPOCH and EPOCH + 2 ^ 42 collide because the shifted
timestamp difference wraps modulo 2 ^ 64. -/
theorem C1_counterexample :
    runOut ⟨0, 0, 1, 1⟩ [(1609459200000, []), (1609459200000 + 2 ^ 42, [])] =
      [(135168, 1609459200000, 0), (135168, 1609459200000 + 2 ^ 42, 0)] ∧
    keyLt (1609459200000, 0) (1609459200000 + 2 ^ 42, 0) := by
  constructor
  · rfl
  · exact Or.inl (by omega)

/-- Claim C1 (amended): across any run of one generator the (timestamp,
sequence) keys of the successfully returned ids are strictly increasing in
lexicographic order; and provided every emitted timestamp lies in
[EPOCH, EPOCH + 2 ^ 42) — no wrap of the shifted timestamp field — all
returned ids are pairwise distinct. -/
theorem C1_monotone_and_distinct (w d : Nat) (s0 : Snowflake)
    (trace : List (Nat × List Nat)) (h : Snowflake.new w d = Except.ok s0) :
    List.Pairwise (fun a b : Nat × Nat × Nat => keyLt a.2 b.2) (runOut s0 trace) ∧
    ((∀ e ∈ runOut s0 trace, EPOCH ≤ e.2.1 ∧ e.2.1 < EPOCH + 2 ^ 42) →
      List.Pairwise (fun a b : Nat × Nat × Nat => a.1 ≠ b.1) (runOut s0 trace)) := by
  obtain ⟨hs0, hw, hd⟩ := new_ok_elim h
  subst hs0
  rcases runOut_spec trace ⟨0, 0, w, d⟩ (Nat.zero_le _) with ⟨hmem, hpw⟩
  refine ⟨hpw, ?_⟩
  intro hbound
  refine hpw.imp_of_mem ?_
  intro a b ha hb hk
  rcases hmem a ha with ⟨-, hma, hba⟩
  rcases hmem b hb with ⟨-, hmb, hbb⟩
  rcases hbound a ha with ⟨ha1, ha2⟩
  rcases hbound b hb with ⟨hb1, hb2⟩
  intro heq
  have hma2 : a.1 = mkId a.2.1 d w a.2.2 := hma
  have hmb2 : b.1 = mkId b.2.1 d w b.2.2 := hmb
  have heq2 : mkId a.2.1 d w a.2.2 = mkId b.2.1 d w b.2.2 := by
    rw [← hma2, ← hmb2]
    exact heq
  rcases mkId_inj hd hw hba hbb ha1 ha2 hb1 hb2 heq2 with ⟨e1, e2⟩
  unfold keyLt at hk
  omega

/-- Witness for C1 (amended) on a concrete two-call trace. -/
theorem C1_witness :
    List.Pairwise (fun a b : Nat × Nat × Nat => keyLt a.2 b.2)
      (runOut ⟨0, 0, 1, 1⟩ [(1609459200005, []), (1609459200007, [])]) :=
  (C1_monotone_and_distinct 1 1 ⟨0, 0, 1, 1⟩
    [(1609459200005, []), (1609459200007, [])] rfl).1
